import Mathlib

/-!
Shallow embedding of the margraf graph engine.

Sources embedded here:
- `src/graph/model.go` — entity store: nodes, edges, histories, weight update,
  temporal decay, save/load, supply-chain discovery.
- `src/discovery/seeder.go` (trailing `package graph` section) — directionality
  policy: `GetEdgeDirectionality`, `ShouldPropagateShock`,
  `GetShockPropagationFactor`.
- `src/unnamed/part_005` (`package simulation`) — shock propagator: `RunShock`,
  `identifyWinners`, `findSubstitutes`, `propagateReverseShocks`.

Modelling conventions:
- Go `float64` is modelled as `ℚ`; `time.Time` as a rational number of days
  (the code only ever uses elapsed time in days: `Sub(..).Hours()/24`), with
  the Go zero time modelled as `0`.
- Go maps (`Nodes`, `EdgeHistories`, the shock `activationMap`) are modelled as
  insertion-ordered association lists, a deterministic refinement of Go's
  unspecified map iteration order.
- `EdgeDirectionality` is a Go string whose only values ever produced by the
  program are `""` (unset), `"Unidirectional"`, `"Reverse"`, `"Bidirectional"`;
  it is modelled as a four-constructor inductive with `unset` for `""`.
- Edge/node types are Go strings and are kept as `String` (the policy tables
  have a default case for unknown types).
- `Graph.Adjacency` is a cache over `Edges` (`json:"-"`), maintained in lock
  step with `Edges` by every code path modelled here; it is embedded as the
  derived function `GetOutgoingEdges` / `outgoingIdx` (filter by source, in
  insertion order), which is exactly the cache's contents.
- Auto-save bookkeeping (`changesSinceLastSave`, `triggerAutoSave`) and log
  output are disk/console side effects touching no graph state and are
  omitted. Locks are irrelevant in the sequential model.
- Go pointer aliasing matters in `RunShock`: edges obtained from the adjacency
  snapshot alias the edges mutated by `UpdateEdgeWeight`, so reads of
  `e.Weight` after the update see the new weight. The embedding tracks edges
  by their index in `Graph.Edges` to reproduce this.
-/

namespace Margraf

/-- model.go: EdgeDirectionality — Go string constants `""` / "Unidirectional" /
"Reverse" / "Bidirectional". -/
inductive EdgeDirectionality where
  | unset
  | unidirectional
  | reverse
  | bidirectional
deriving DecidableEq

/-- model.go: Node. Market fields (ticker/price/currency/lastUpdated) and the
open attribute bag are carried unchanged by every operation modelled here and
are omitted. -/
structure Node where
  id : String
  type : String
  name : String
  health : ℚ

/-- model.go: Edge. -/
structure Edge where
  sourceID : String
  targetID : String
  type : String
  weight : ℚ
  timestamp : ℚ
  status : String
  directionality : EdgeDirectionality
deriving DecidableEq

instance : Inhabited Edge := ⟨⟨"", "", "", 0, 0, "", .unset⟩⟩

/-- model.go: EdgeSnapshot. -/
structure EdgeSnapshot where
  weight : ℚ
  timestamp : ℚ
  status : String
  eventID : String

/-- model.go: EdgeHistory. -/
structure EdgeHistory where
  sourceID : String
  targetID : String
  type : String
  history : List EdgeSnapshot

/-- model.go: Graph (nodes map, edge slice, history map; Adjacency is derived,
see file header). -/
structure Graph where
  Nodes : List (String × Node)
  Edges : List Edge
  EdgeHistories : List (String × EdgeHistory)

/-- model.go: NewGraph. -/
def NewGraph : Graph := ⟨[], [], []⟩

/-- Lookup in the nodes map. -/
def nodesFind (ns : List (String × Node)) (id : String) : Option Node :=
  (ns.find? (fun p => p.1 == id)).map (·.2)

/-- Go map assignment `m[k] = v`: overwrite in place if present, else insert
(new keys take the insertion-order position). -/
def nodesSet (ns : List (String × Node)) (id : String) (n : Node) :
    List (String × Node) :=
  if ns.any (fun p => p.1 == id) then
    ns.map (fun p => if p.1 == id then (id, n) else p)
  else ns ++ [(id, n)]

/-- seeder.go: GetEdgeDirectionality — static policy table from edge type to
directionality (Go switch with a Bidirectional default). -/
def GetEdgeDirectionality : String → EdgeDirectionality
  | "Supplies" => .unidirectional
  | "Manufactures" => .unidirectional
  | "Produces" => .unidirectional
  | "HasIndustry" => .unidirectional
  | "HasCompany" => .unidirectional
  | "ProcuresFrom" => .reverse
  | "Requires" => .reverse
  | "Consumes" => .reverse
  | "DependsOn" => .reverse
  | "Trade" => .bidirectional
  | "Capital" => .bidirectional
  | "CompetesWith" => .bidirectional
  | "SubstituteFor" => .bidirectional
  | "Regulatory" => .bidirectional
  | _ => .bidirectional

/-- The edge types named in the Go switch of `GetEdgeDirectionality` /
`GetShockPropagationFactor`; everything else hits the default case. -/
def knownEdgeTypes : List String :=
  ["Supplies", "Manufactures", "Produces", "HasIndustry", "HasCompany",
   "ProcuresFrom", "Requires", "Consumes", "DependsOn",
   "Trade", "Capital", "CompetesWith", "SubstituteFor", "Regulatory"]

/-- seeder.go: ShouldPropagateShock. The Go function also writes the resolved
directionality back into the (pointer-shared) edge when it was unset; that
write is observationally irrelevant here because every later read goes through
the same resolution. The final `true` is Go's `default:` branch. -/
def ShouldPropagateShock (e : Edge) (fromSource : Bool) : Bool :=
  let dir := if e.directionality = .unset then GetEdgeDirectionality e.type
             else e.directionality
  match dir with
  | .unidirectional => fromSource
  | .reverse => !fromSource
  | .bidirectional => true
  | .unset => true

/-- seeder.go: GetShockPropagationFactor — attenuation per edge type. -/
def GetShockPropagationFactor : String → ℚ
  | "Supplies" => 9/10
  | "Manufactures" => 9/10
  | "Produces" => 8/10
  | "ProcuresFrom" => 7/10
  | "Consumes" => 7/10
  | "Requires" => 7/10
  | "DependsOn" => 8/10
  | "Trade" => 6/10
  | "Capital" => 5/10
  | "CompetesWith" => 3/10
  | "SubstituteFor" => 4/10
  | "Regulatory" => 4/10
  | "HasIndustry" => 6/10
  | "HasCompany" => 5/10
  | _ => 5/10

/-- model.go: expApprox — truncated Taylor series for e^x. `fuel` counts the
remaining loop iterations (Go: `for i := 1; i < 20; i++`), `i` is the loop
index, with early exit when the freshly added term is below 1e-10 in absolute
value. -/
def expApproxFrom (x : ℚ) : Nat → Nat → ℚ → ℚ → ℚ
  | 0, _, _, result => result
  | fuel + 1, i, term, result =>
    let t := term * (x / (i : ℚ))
    let r := result + t
    if t < 1/10000000000 ∧ -(1/10000000000) < t then r
    else expApproxFrom x fuel (i + 1) t r

/-- model.go: expApprox entry point (20 terms, i.e. 19 loop iterations). -/
def expApprox (x : ℚ) : ℚ := expApproxFrom x 19 1 1 1

/-- model.go: the weight→status band used verbatim in both `UpdateEdgeWeight`
(lines 368–376) and `ApplyTemporalDecay` (lines 580–588). -/
def bandStatus (w : ℚ) : String :=
  if w < 1/10 then "Blocked"
  else if w < 3/10 then "Weak"
  else if w < 7/10 then "Active"
  else "Strong"

/-- model.go: AddNode — zero health defaults to 1.0; keyed by `n.ID`. No
clamping is performed on a caller-supplied nonzero health. -/
def AddNode (g : Graph) (n : Node) : Graph :=
  let n' := if n.health = 0 then { n with health := 1 } else n
  { g with Nodes := nodesSet g.Nodes n'.id n' }

/-- model.go, UpdateNodeHealth lines 194–196: the sequential health clamp to
[0.1, 2.0]. -/
def clampHealth (x : ℚ) : ℚ :=
  let h1 := if x < 1/10 then (1/10 : ℚ) else x
  if h1 > 2 then 2 else h1

/-- model.go: UpdateNodeHealth — add delta then clamp to [0.1, 2.0]; returns
(graph, newHealth, found) mirroring Go's `(float64, bool)`. -/
def UpdateNodeHealth (g : Graph) (id : String) (delta : ℚ) :
    Graph × ℚ × Bool :=
  match nodesFind g.Nodes id with
  | none => (g, 0, false)
  | some node =>
    let h2 := clampHealth (node.health + delta)
    ({ g with Nodes := nodesSet g.Nodes id { node with health := h2 } }, h2, true)

/-- model.go: the `"src|tgt|type"` key of the history map. -/
def historyKey (sourceID targetID type_ : String) : String :=
  sourceID ++ "|" ++ targetID ++ "|" ++ type_

/-- model.go: recordEdgeHistory — append a snapshot of `e` under its key. -/
def recordEdgeHistory (hs : List (String × EdgeHistory)) (e : Edge)
    (eventID : String) : List (String × EdgeHistory) :=
  let key := historyKey e.sourceID e.targetID e.type
  let snap : EdgeSnapshot := ⟨e.weight, e.timestamp, e.status, eventID⟩
  if hs.any (fun p => p.1 == key) then
    hs.map (fun p =>
      if p.1 == key then (key, { p.2 with history := p.2.history ++ [snap] })
      else p)
  else
    hs ++ [(key, ⟨e.sourceID, e.targetID, e.type, [snap]⟩)]

/-- model.go: AddEdge — default timestamp (`now`), status ("Active") and
directionality (from the policy table), append to the edge slice (and hence to
the adjacency cache), record an initial history snapshot. -/
def AddEdge (now : ℚ) (g : Graph) (e : Edge) : Graph :=
  let e1 := if e.timestamp = 0 then { e with timestamp := now } else e
  let e2 := if e1.status = "" then { e1 with status := "Active" } else e1
  let e3 := if e2.directionality = .unset then
      { e2 with directionality := GetEdgeDirectionality e2.type }
    else e2
  { g with Edges := g.Edges ++ [e3],
           EdgeHistories := recordEdgeHistory g.EdgeHistories e3 "" }

/-- model.go: GetOutgoingEdges — the adjacency cache entry for `id`: all edges
with that source, in insertion order. -/
def GetOutgoingEdges (g : Graph) (id : String) : List Edge :=
  g.Edges.filter (fun e => e.sourceID == id)

/-- Positions in `g.Edges` of the adjacency cache entry for `id`; used where
Go iterates over a snapshot of `*Edge` pointers that alias the store. -/
def outgoingIdx (g : Graph) (id : String) : List Nat :=
  (List.range g.Edges.length).filter
    (fun i => (g.Edges.getD i default).sourceID == id)

/-- model.go: UpdateEdgeWeight — find the first edge in the adjacency list of
`sourceID` matching (targetID, type); decay its weight by
`expApprox (-λ·Δdays)` with λ = 0.05, add `sentiment · relevance`, clamp to
[0,1], restamp, reband the status, append a history snapshot. Returns the
updated graph together with the updated edge (Go returns only `error`; the
updated edge is reachable through the shared pointer, which the callers in
part_005 read). `none` models the "edge not found" error. -/
def UpdateEdgeWeight (now : ℚ) (g : Graph) (sourceID targetID edgeType : String)
    (sentimentScore relevanceScore : ℚ) (eventID : String) :
    Option (Graph × Edge) :=
  match g.Edges.findIdx? (fun e =>
      e.sourceID == sourceID && e.targetID == targetID && e.type == edgeType) with
  | none => none
  | some i =>
    let e := g.Edges.getD i default
    let timeSinceUpdate := now - e.timestamp
    let lambda : ℚ := 5/100
    let decayFactor := expApprox (-lambda * timeSinceUpdate)
    let decayedWeight := e.weight * decayFactor
    let newWeight0 := decayedWeight + sentimentScore * relevanceScore
    let newWeight1 := if newWeight0 < 0 then (0 : ℚ) else newWeight0
    let newWeight := if newWeight1 > 1 then (1 : ℚ) else newWeight1
    let e' := { e with weight := newWeight, timestamp := now,
                       status := bandStatus newWeight }
    some ({ g with Edges := g.Edges.set i e',
                   EdgeHistories := recordEdgeHistory g.EdgeHistories e' eventID },
          e')

/-- model.go, ApplyTemporalDecay lines 562–571: the candidate new weight of an
edge — decay by `expApprox (-λ·Δdays)`, floored at 0.01. -/
def decayNewWeight (lambda now : ℚ) (e : Edge) : ℚ :=
  let decayFactor := expApprox (-lambda * (now - e.timestamp))
  let newWeight0 := e.weight * decayFactor
  if newWeight0 < 1/100 then 1/100 else newWeight0

/-- model.go: the per-edge body of `ApplyTemporalDecay`. Returns the (possibly
updated) edge and whether it was committed: skip when updated under one hour
ago (Δ < 1/24 days), otherwise commit the decayed weight (with restamp and
reband) only when the decrease exceeds 0.001. -/
def decayStepEdge (lambda now : ℚ) (e : Edge) : Edge × Bool :=
  if now - e.timestamp < 1/24 then (e, false)
  else if e.weight - decayNewWeight lambda now e > 1/1000 then
    ({ e with weight := decayNewWeight lambda now e, timestamp := now,
              status := bandStatus (decayNewWeight lambda now e) }, true)
  else (e, false)

/-- model.go: the edge loop of `ApplyTemporalDecay`, threading the history map
and the changed-edge count in slice order. -/
def decayFold (lambda now : ℚ) :
    List Edge → List (String × EdgeHistory) →
    List Edge × List (String × EdgeHistory) × Nat
  | [], hs => ([], hs, 0)
  | e :: rest, hs =>
    let (e', updated) := decayStepEdge lambda now e
    let hs' := if updated then recordEdgeHistory hs e' "temporal_decay" else hs
    let (es'', hs'', n) := decayFold lambda now rest hs'
    (e' :: es'', hs'', if updated then n + 1 else n)

/-- model.go: ApplyTemporalDecay — decay every edge, record a
"temporal_decay" history snapshot for each committed change, return the
changed-edge count. -/
def ApplyTemporalDecay (lambda now : ℚ) (g : Graph) : Graph × Nat :=
  let (es, hs, n) := decayFold lambda now g.Edges g.EdgeHistories
  ({ g with Edges := es, EdgeHistories := hs }, n)

/-! ### Persistence (model.go: Save / Load / DiscoverSupplyChainRelations)

`Save` marshals exactly `Nodes`, `Edges`, `EdgeHistories` (the adjacency cache
is `json:"-"`); the JSON encode/decode boundary is assumed faithful, so a saved
document is the triple itself. -/

/-- model.go: the JSON document written by `Save` and read by `Load`. -/
structure SavedGraph where
  Nodes : List (String × Node)
  Edges : List Edge
  EdgeHistories : List (String × EdgeHistory)

/-- model.go: Save. -/
def Save (g : Graph) : SavedGraph := ⟨g.Nodes, g.Edges, g.EdgeHistories⟩

/-- model.go: DiscoverSupplyChainRelations, per-DependsOn-edge body — when both
endpoints exist and are corporations, emit the missing `Supplies`
(target→source) and `ProcuresFrom` (source→target) edges, updating the key
set.  New edges copy weight and status, carry the zero timestamp, and get
explicit directionality. -/
def discoverStep (nodes : List (String × Node)) (e : Edge)
    (keys : List String) : List Edge × List String :=
  if e.type == "DependsOn" then
    match nodesFind nodes e.sourceID, nodesFind nodes e.targetID with
    | some sourceNode, some targetNode =>
      if sourceNode.type == "Corporation" && targetNode.type == "Corporation" then
        let k1 := historyKey e.targetID e.sourceID "Supplies"
        let (new1, keys1) :=
          if keys.contains k1 then ([], keys)
          else ([Edge.mk e.targetID e.sourceID "Supplies" e.weight 0 e.status
                   .unidirectional], keys ++ [k1])
        let k2 := historyKey e.sourceID e.targetID "ProcuresFrom"
        let (new2, keys2) :=
          if keys1.contains k2 then ([], keys1)
          else ([Edge.mk e.sourceID e.targetID "ProcuresFrom" e.weight 0 e.status
                   .reverse], keys1 ++ [k2])
        (new1 ++ new2, keys2)
      else ([], keys)
    | _, _ => ([], keys)
  else ([], keys)

/-- The DependsOn loop of `DiscoverSupplyChainRelations`: Go ranges over the
edge slice captured at loop entry while appending to the graph, so the fold
runs over the original list and collects the appends. -/
def discoverLoop (nodes : List (String × Node)) :
    List Edge → List String → List Edge
  | [], _ => []
  | e :: rest, keys =>
    let (new, keys') := discoverStep nodes e keys
    new ++ discoverLoop nodes rest keys'

/-- model.go: the `"src|tgt|type"` lookup key of an edge, as used by the
`existingEdges` map of `DiscoverSupplyChainRelations`. -/
def edgeKey (e : Edge) : String := historyKey e.sourceID e.targetID e.type

/-- model.go: DiscoverSupplyChainRelations — build the existing-edge key set,
append the missing Supplies/ProcuresFrom counterparts of corporation-to-
corporation DependsOn edges, return the number added.  (The Trade loop and the
materials/products maps in the Go function compute nothing observable and are
omitted.)  No history snapshots are recorded for discovered edges. -/
def DiscoverSupplyChainRelations (g : Graph) : Graph × Nat :=
  let keys := g.Edges.map edgeKey
  let added := discoverLoop g.Nodes g.Edges keys
  ({ g with Edges := g.Edges ++ added }, added.length)

/-- model.go: Load — decode the document, resolve directionality for any edge
that predates the field (migration-on-read), rebuild the adjacency cache, then
run supply-chain discovery. -/
def Load (d : SavedGraph) : Graph :=
  let edges := d.Edges.map (fun e =>
    if e.directionality = .unset then
      { e with directionality := GetEdgeDirectionality e.type }
    else e)
  (DiscoverSupplyChainRelations ⟨d.Nodes, edges, d.EdgeHistories⟩).1

/-! ### Shock propagator (src/unnamed/part_005) -/

/-- part_005: ShockEvent. -/
structure ShockEvent where
  targetNodeID : String
  description : String
  impactFactor : ℚ

/-- The mutable state threaded through `RunShock`'s loops: the graph, the
activation-energy map, and the directly impacted node list. -/
structure ShockState where
  g : Graph
  act : List (String × ℚ)
  impacted : List String

/-- Go map assignment on the activation map. -/
def actSet (m : List (String × ℚ)) (k : String) (v : ℚ) : List (String × ℚ) :=
  if m.any (fun p => p.1 == k) then
    m.map (fun p => if p.1 == k then (k, v) else p)
  else m ++ [(k, v)]

/-- Go map read (missing key yields the zero value). -/
def actGet (m : List (String × ℚ)) (k : String) : ℚ :=
  match m.find? (fun p => p.1 == k) with
  | some p => p.2
  | none => 0

/-- Values `RunShock` reports (Go logs them; counts mirror the summary line).
`found = false` is the "Target node not found" early return. -/
structure ShockResult where
  found : Bool
  effectiveImpact : ℚ
  impacted : List String
  winners : List String
  act : List (String × ℚ)

/-- part_005 lines 69–105: the first-order propagation loop over the adjacency
snapshot of the target (edge positions in `Graph.Edges`).  Skips edges whose
directionality blocks source→target travel; otherwise updates the edge weight
with `sentiment = -(1-effectiveImpact)`, `relevance = 1`, records the far
endpoint's activation energy `(1-effectiveImpact) · w · attenuation` — where
`w` is the post-update weight, read through the shared edge pointer — and
applies health delta `-0.1 · (1-effectiveImpact) · attenuation` to the far
endpoint. -/
def firstOrderStep (now effectiveImpact : ℚ) (targetNodeID : String)
    (st : ShockState) (idx : Nat) : ShockState :=
  let e := st.g.Edges.getD idx default
  if !ShouldPropagateShock e true then st
  else
    let propagationFactor := GetShockPropagationFactor e.type
    let sentimentScore := -(1 - effectiveImpact)
    let eventID := "shock_" ++ targetNodeID ++ "_" ++ Nat.repr st.act.length
    match UpdateEdgeWeight now st.g e.sourceID e.targetID e.type
        sentimentScore 1 eventID with
    | some (g', _) =>
      let act' := actSet st.act e.targetID
        ((1 - effectiveImpact) * (g'.Edges.getD idx default).weight *
          propagationFactor)
      let healthDelta := -(1/10) * (1 - effectiveImpact) * propagationFactor
      let g'' := (UpdateNodeHealth g' e.targetID healthDelta).1
      ⟨g'', act', st.impacted ++ [e.targetID]⟩
    | none => st

def firstOrderLoop (now effectiveImpact : ℚ) (targetNodeID : String)
    (idxs : List Nat) (st : ShockState) : ShockState :=
  idxs.foldl (firstOrderStep now effectiveImpact targetNodeID) st

/-- part_005: propagateReverseShocks — scan every edge (positions in the
`EdgesRange` snapshot) whose target is the shocked node and whose
directionality propagates target→source; update its weight the same way and
hit the source endpoint with half the health factor (-0.05). -/
def reverseStep (now effectiveImpact : ℚ) (targetNodeID : String)
    (st : ShockState) (idx : Nat) : ShockState :=
  let edge := st.g.Edges.getD idx default
  if edge.targetID != targetNodeID then st
  else if !ShouldPropagateShock edge false then st
  else
    match nodesFind st.g.Nodes edge.sourceID with
    | none => st
    | some _ =>
      let propagationFactor := GetShockPropagationFactor edge.type
      let sentimentScore := -(1 - effectiveImpact)
      let eventID := "shock_" ++ targetNodeID ++ "_reverse"
      match UpdateEdgeWeight now st.g edge.sourceID edge.targetID edge.type
          sentimentScore 1 eventID with
      | some (g', _) =>
        let act' := actSet st.act edge.sourceID
          ((1 - effectiveImpact) * (g'.Edges.getD idx default).weight *
            propagationFactor)
        let healthDelta := -(1/20) * (1 - effectiveImpact) * propagationFactor
        let g'' := (UpdateNodeHealth g' edge.sourceID healthDelta).1
        ⟨g'', act', st.impacted ++ [edge.sourceID]⟩
      | none => st

def reverseLoop (now effectiveImpact : ℚ) (targetNodeID : String)
    (idxs : List Nat) (st : ShockState) : ShockState :=
  idxs.foldl (reverseStep now effectiveImpact targetNodeID) st

/-- part_005: findSubstitutes — every node holding a `Produces` edge to the
commodity is appended (once per such edge), the shocked node included. -/
def findSubstitutes (g : Graph) (commodityID : String) : List String :=
  g.Nodes.foldl (fun acc p =>
    acc ++ (((GetOutgoingEdges g p.2.id).filter (fun e =>
      e.type == "Produces" && e.targetID == commodityID)).map
      (fun _ => p.2.id))) []

/-- part_005, identifyWinners strategy 1 (lines 168–178): when the shocked
node is a Nation or RawMaterial, every alternative producer of every commodity
it `Produces`. -/
def winnersStrategy1 (g : Graph) (shockedNodeID : String)
    (shockedNode : Node) : List String :=
  if shockedNode.type == "Nation" || shockedNode.type == "RawMaterial" then
    (GetOutgoingEdges g shockedNodeID).foldl (fun acc e =>
      if e.type == "Produces" then acc ++ findSubstitutes g e.targetID
      else acc) []
  else []

/-- part_005, identifyWinners strategy 2 (lines 182–196), per-edge body:
`CompetesWith` neighbours (the source side takes precedence for self-loops)
and `SubstituteFor` sources pointing at the shocked node. -/
def winnersStrategy2Step (shockedNodeID : String) (acc : List String)
    (e : Edge) : List String :=
  let acc1 :=
    if e.type == "CompetesWith" then
      if e.sourceID == shockedNodeID then acc ++ [e.targetID]
      else if e.targetID == shockedNodeID then acc ++ [e.sourceID]
      else acc
    else acc
  if e.type == "SubstituteFor" && e.targetID == shockedNodeID then
    acc1 ++ [e.sourceID]
  else acc1

/-- part_005: identifyWinners — strategy 1 then strategy 2 over all edges. -/
def identifyWinners (g : Graph) (shockedNodeID : String) : List String :=
  match nodesFind g.Nodes shockedNodeID with
  | none => []
  | some shockedNode =>
    g.Edges.foldl (winnersStrategy2Step shockedNodeID)
      (winnersStrategy1 g shockedNodeID shockedNode)

/-- part_005 lines 114–123: each identified winner receives a +0.15 health
boost (clamped by `UpdateNodeHealth`). -/
def winnersBoostLoop (winners : List String) (g : Graph) : Graph :=
  winners.foldl (fun g w => (UpdateNodeHealth g w (3/20)).1) g

/-- part_005 lines 137–153: the inner second-order loop over the outgoing
adjacency snapshot of one impacted node: unconditional weight reduction with
`sentiment = -activation·0.5`, `relevance = 0.7`, and third-order activation
seeding at 30% when the activation exceeds 0.15. -/
def secondOrderInnerStep (now : ℚ) (targetNodeID impactedID : String)
    (activation : ℚ) (s : Graph × List (String × ℚ)) (idx : Nat) :
    Graph × List (String × ℚ) :=
  let e := s.1.Edges.getD idx default
  let sentimentScore := -activation * (1/2)
  let eventID := "shock_" ++ targetNodeID ++ "_2nd_" ++ impactedID
  let g' := match UpdateEdgeWeight now s.1 e.sourceID e.targetID e.type
      sentimentScore (7/10) eventID with
    | some (g', _) => g'
    | none => s.1
  let act' := if activation > 3/20 then actSet s.2 e.targetID (activation * (3/10))
    else s.2
  (g', act')

def secondOrderInner (now : ℚ) (targetNodeID impactedID : String)
    (activation : ℚ) (idxs : List Nat) (s : Graph × List (String × ℚ)) :
    Graph × List (String × ℚ) :=
  idxs.foldl (secondOrderInnerStep now targetNodeID impactedID activation) s

/-- part_005 lines 126–155: the second-order ripple over the directly impacted
nodes, skipping activations below 0.05. -/
def secondOrderOuterStep (now : ℚ) (targetNodeID : String)
    (s : Graph × List (String × ℚ)) (impactedID : String) :
    Graph × List (String × ℚ) :=
  let activation := actGet s.2 impactedID
  if activation < 1/20 then s
  else secondOrderInner now targetNodeID impactedID activation
    (outgoingIdx s.1 impactedID) s

def secondOrderLoop (now : ℚ) (targetNodeID : String)
    (impactedIDs : List String) (s : Graph × List (String × ℚ)) :
    Graph × List (String × ℚ) :=
  impactedIDs.foldl (secondOrderOuterStep now targetNodeID) s

/-- part_005: RunShock — the full shock pipeline: target lookup (missing ⇒ no
effect), resilience = health floored at 0.1, effective impact
`1 - (1-factor)/resilience` clamped to [0,1], fixed -0.2 target health
penalty, first-order propagation, reverse propagation, winner identification
and +0.15 boosts, second-order ripple. -/
def RunShock (now : ℚ) (g : Graph) (event : ShockEvent) : Graph × ShockResult :=
  match nodesFind g.Nodes event.targetNodeID with
  | none => (g, ⟨false, 0, [], [], []⟩)
  | some target =>
    let resilience := if target.health ≤ 1/10 then (1/10 : ℚ) else target.health
    let ei0 := 1 - (1 - event.impactFactor) / resilience
    let ei1 := if ei0 < 0 then (0 : ℚ) else ei0
    let effectiveImpact := if ei1 > 1 then (1 : ℚ) else ei1
    let g1 := (UpdateNodeHealth g event.targetNodeID (-(2/10))).1
    let st0 : ShockState :=
      ⟨g1, [(event.targetNodeID, 1 - effectiveImpact)], []⟩
    let st1 := firstOrderLoop now effectiveImpact event.targetNodeID
      (outgoingIdx g1 event.targetNodeID) st0
    let st2 := reverseLoop now effectiveImpact event.targetNodeID
      (List.range st1.g.Edges.length) st1
    let winners := identifyWinners st2.g event.targetNodeID
    let g3 := winnersBoostLoop winners st2.g
    let s4 := secondOrderLoop now event.targetNodeID st2.impacted (g3, st2.act)
    (s4.1, ⟨true, effectiveImpact, st2.impacted, winners, s4.2⟩)

/-! ### Concrete scenario graphs (used by scenario conjuncts, witnesses and
counterexamples) -/

/-- Spec §8 scenario: entity A (health 1.0) --Supplies(weight 0.9)--> B. -/
def gScenario : Graph :=
  AddEdge 0 (AddNode (AddNode NewGraph ⟨"A", "Corporation", "A", 1⟩)
      ⟨"B", "Corporation", "B", 1⟩)
    ⟨"A", "B", "Supplies", 9/10, 0, "", .unset⟩

/-- Spec §8 scenario: A --CompetesWith--> C. -/
def gCompete : Graph :=
  AddEdge 0 (AddNode (AddNode NewGraph ⟨"A", "Corporation", "A", 1⟩)
      ⟨"C", "Corporation", "C", 1⟩)
    ⟨"A", "C", "CompetesWith", 1/2, 0, "", .unset⟩

/-- Two nations producing the same raw material, with no competition or
substitution edges anywhere. -/
def gProducers : Graph :=
  AddEdge 0 (AddEdge 0
    (AddNode (AddNode (AddNode NewGraph ⟨"A", "Nation", "A", 1⟩)
        ⟨"W", "RawMaterial", "Wheat", 1⟩)
      ⟨"D", "Nation", "D", 1⟩)
    ⟨"A", "W", "Produces", 9/10, 0, "", .unset⟩)
    ⟨"D", "W", "Produces", 9/10, 0, "", .unset⟩

/-- Two corporations linked only by a DependsOn edge: `Load` discovers the
missing Supplies/ProcuresFrom counterparts. -/
def gDepends : Graph :=
  AddEdge 0 (AddNode (AddNode NewGraph ⟨"A", "Corporation", "A", 1⟩)
      ⟨"B", "Corporation", "B", 1⟩)
    ⟨"A", "B", "DependsOn", 1/2, 0, "", .unset⟩

/-- The store and result `RunShock` produces on `gScenario` (shock "A",
impact 0.1 at time 0), written out literally so the scenario facts follow from
a single evaluation. -/
def gScenarioAfter : Graph :=
  ⟨[("A", ⟨"A", "Corporation", "A", 4/5⟩),
    ("B", ⟨"B", "Corporation", "B", 919/1000⟩)],
   [⟨"A", "B", "Supplies", 0, 0, "Blocked", .unidirectional⟩],
   [("A|B|Supplies", ⟨"A", "B", "Supplies",
      [⟨9/10, 0, "Active", ""⟩, ⟨0, 0, "Blocked", "shock_A_1"⟩]⟩)]⟩

def scenarioAfterResult : ShockResult :=
  ⟨true, 1/10, ["B"], [], [("A", 9/10), ("B", 0)]⟩

/-- The store and result `RunShock` produces on `gCompete` (shock "A", impact
1.0 at time 0). -/
def gCompeteAfter : Graph :=
  ⟨[("A", ⟨"A", "Corporation", "A", 4/5⟩),
    ("C", ⟨"C", "Corporation", "C", 23/20⟩)],
   [⟨"A", "C", "CompetesWith", 1/2, 0, "Active", .bidirectional⟩],
   [("A|C|CompetesWith", ⟨"A", "C", "CompetesWith",
      [⟨1/2, 0, "Active", ""⟩, ⟨1/2, 0, "Active", "shock_A_1"⟩]⟩)]⟩

def competeAfterResult : ShockResult :=
  ⟨true, 1, ["C"], ["C"], [("A", 0), ("C", 0)]⟩

/-- The store and result `RunShock` produces on `gProducers` (shock "A",
impact 1.0 at time 0). -/
def gProducersAfter : Graph :=
  ⟨[("A", ⟨"A", "Nation", "A", 19/20⟩),
    ("W", ⟨"W", "RawMaterial", "Wheat", 1⟩),
    ("D", ⟨"D", "Nation", "D", 23/20⟩)],
   [⟨"A", "W", "Produces", 9/10, 0, "Strong", .unidirectional⟩,
    ⟨"D", "W", "Produces", 9/10, 0, "Active", .unidirectional⟩],
   [("A|W|Produces", ⟨"A", "W", "Produces",
      [⟨9/10, 0, "Active", ""⟩, ⟨9/10, 0, "Strong", "shock_A_1"⟩]⟩),
    ("D|W|Produces", ⟨"D", "W", "Produces", [⟨9/10, 0, "Active", ""⟩]⟩)]⟩

def producersAfterResult : ShockResult :=
  ⟨true, 1, ["W"], ["A", "D"], [("A", 0), ("W", 0)]⟩

/-- The directionality `ShouldPropagateShock` actually decides on: the stored
tag, falling back to the policy table only when unset. -/
def resolvedDirectionality (e : Edge) : EdgeDirectionality :=
  if e.directionality = .unset then GetEdgeDirectionality e.type
  else e.directionality

/-- C2 witness: a concrete successful update on the scenario graph. -/
def updWitness : Graph × Edge :=
  (UpdateEdgeWeight 0 gScenario "A" "B" "Supplies" (1/2) 1 "evt").getD
    (NewGraph, default)

/-- Repeated decay sweeps at the given clock readings (days). -/
def iterateDecay (lambda : ℚ) (nows : List ℚ) (g : Graph) : Graph :=
  nows.foldl (fun g n => (ApplyTemporalDecay lambda n g).1) g

/-- Every stored entity's health lies in [0.1, 2.0]. -/
def healthInv (g : Graph) : Prop :=
  ∀ p ∈ g.Nodes, 1/10 ≤ p.2.health ∧ p.2.health ≤ 2

/-- Every stored edge already carries an explicit directionality, so the
migration-on-read in `Load` is the identity. -/
def allDirectionalitySet (g : Graph) : Prop :=
  ∀ e ∈ g.Edges, e.directionality ≠ EdgeDirectionality.unset

/-- No corporation-to-corporation DependsOn edge is missing its
Supplies/ProcuresFrom counterparts, so supply-chain discovery adds nothing. -/
def supplyPairsComplete (g : Graph) : Prop :=
  ∀ e ∈ g.Edges,
    discoverStep g.Nodes e (g.Edges.map edgeKey) = ([], g.Edges.map edgeKey)

/-- The exact flagging condition `identifyWinners` implements (see the C5
theorem): competes-with neighbours, substitute-for sources, and — for Nation
or RawMaterial targets — every producer of a commodity the target produces. -/
def winnerFlagged (g : Graph) (id : String) (sn : Node) (x : String) : Prop :=
  ((sn.type = "Nation" ∨ sn.type = "RawMaterial") ∧
    ∃ eP ∈ g.Edges, eP.sourceID = id ∧ eP.type = "Produces" ∧
      ∃ p ∈ g.Nodes, x = p.2.id ∧
        ∃ e2 ∈ g.Edges, e2.sourceID = p.2.id ∧ e2.type = "Produces" ∧
          e2.targetID = eP.targetID) ∨
  (∃ e ∈ g.Edges, e.type = "CompetesWith" ∧ e.sourceID = id ∧
    x = e.targetID) ∨
  (∃ e ∈ g.Edges, e.type = "CompetesWith" ∧ e.sourceID ≠ id ∧
    e.targetID = id ∧ x = e.sourceID) ∨
  (∃ e ∈ g.Edges, e.type = "SubstituteFor" ∧ e.targetID = id ∧
    x = e.sourceID)

/-! ### Shared lemmas -/

theorem mem_set_self {α : Type} (l : List α) (i : Nat) (a : α)
    (h : i < l.length) : a ∈ l.set i a := by
  induction l generalizing i with
  | nil => simp at h
  | cons x xs ih =>
    cases i with
    | zero => simp
    | succ j =>
      simp only [List.set_cons_succ, List.mem_cons]
      exact Or.inr (ih j (by simpa using h))

/-- The sequential two-if clamp used by `UpdateEdgeWeight` keeps values in
[0, 1]. -/
theorem clamp01_spec (x : ℚ) :
    (0 : ℚ) ≤ (if (if x < 0 then (0 : ℚ) else x) > 1 then 1
               else if x < 0 then 0 else x) ∧
    (if (if x < 0 then (0 : ℚ) else x) > 1 then 1
     else if x < 0 then 0 else x) ≤ 1 := by
  by_cases h2 : x < 0
  · simp only [if_pos h2]
    norm_num
  · simp only [if_neg h2]
    by_cases h1 : x > 1
    · simp only [if_pos h1]
      norm_num
    · simp only [if_neg h1]
      constructor <;> linarith

theorem option_eq_some_getD {α : Type} (o : Option α) (d : α)
    (h : o.isSome = true) : o = some (o.getD d) := by
  cases o with
  | none => cases h
  | some a => rfl

/-- The policy table never yields the unset directionality. -/
theorem getEdgeDirectionality_ne_unset (ty : String) :
    GetEdgeDirectionality ty ≠ .unset := by
  unfold GetEdgeDirectionality
  split <;> exact fun hh => EdgeDirectionality.noConfusion hh


/-! ### C2 — weight clamped to [0,1] and status rebanded on every successful
UpdateEdgeWeight -/

/-- C2: after every successful UpdateEdgeWeight call, the updated edge's
weight lies in [0.0, 1.0], its status is the band containing that weight
(Blocked < 0.1, Weak < 0.3, Active < 0.7, Strong ≥ 0.7), and the edge is
stored in the resulting graph. -/
theorem updateEdgeWeight_range_and_band
    (now : ℚ) (g : Graph) (sourceID targetID edgeType : String)
    (sentimentScore relevanceScore : ℚ) (eventID : String)
    (g' : Graph) (e' : Edge)
    (h : UpdateEdgeWeight now g sourceID targetID edgeType sentimentScore
      relevanceScore eventID = some (g', e')) :
    0 ≤ e'.weight ∧ e'.weight ≤ 1 ∧ e'.status = bandStatus e'.weight ∧
      e' ∈ g'.Edges := by
  unfold UpdateEdgeWeight at h
  cases hi : g.Edges.findIdx? (fun e =>
      e.sourceID == sourceID && e.targetID == targetID && e.type == edgeType) with
  | none => rw [hi] at h; cases h
  | some i =>
    rw [hi] at h
    simp only [Option.some.injEq, Prod.mk.injEq] at h
    obtain ⟨hg, he⟩ := h
    have hlen : i < g.Edges.length :=
      (List.findIdx?_eq_some_iff_findIdx_eq.mp hi).1
    subst hg
    subst he
    exact ⟨(clamp01_spec _).1, (clamp01_spec _).2, rfl,
      mem_set_self g.Edges i _ hlen⟩


theorem updateEdgeWeight_range_and_band_witness :
    0 ≤ updWitness.2.weight ∧ updWitness.2.weight ≤ 1 ∧
      updWitness.2.status = bandStatus updWitness.2.weight ∧
      updWitness.2 ∈ updWitness.1.Edges :=
  updateEdgeWeight_range_and_band 0 gScenario "A" "B" "Supplies" (1/2) 1 "evt"
    updWitness.1 updWitness.2
    (option_eq_some_getD _ (NewGraph, default) (by with_unfolding_all rfl))

/-! ### C4 — shock propagation is decided by the stored directionality -/

/-- C4: `ShouldPropagateShock` propagates exactly when the edge's resolved
directionality is Bidirectional, or Unidirectional while traveling from
source, or Reverse while traveling from target; and a stored (set)
directionality makes the result independent of the edge type, so the stored
tag stays authoritative even where the type table disagrees. -/
theorem shouldPropagateShock_directionality_spec :
    (∀ (e : Edge) (fromSource : Bool),
      ShouldPropagateShock e fromSource = true ↔
        (resolvedDirectionality e = .bidirectional ∨
         (resolvedDirectionality e = .unidirectional ∧ fromSource = true) ∨
         (resolvedDirectionality e = .reverse ∧ fromSource = false))) ∧
    (∀ (e : Edge) (b : Bool) (ty : String), e.directionality ≠ .unset →
      ShouldPropagateShock { e with type := ty } b = ShouldPropagateShock e b) := by
  constructor
  · intro e b
    unfold ShouldPropagateShock resolvedDirectionality
    by_cases hu : e.directionality = .unset
    · simp only [hu, if_pos rfl]
      cases hg : GetEdgeDirectionality e.type with
      | unset => exact absurd hg (getEdgeDirectionality_ne_unset _)
      | unidirectional => cases b <;> simp
      | reverse => cases b <;> simp
      | bidirectional => simp
    · simp only [if_neg hu]
      cases hd : e.directionality with
      | unset => exact absurd hd hu
      | unidirectional => cases b <;> simp
      | reverse => cases b <;> simp
      | bidirectional => simp
  · intro e b ty h
    unfold ShouldPropagateShock
    simp [h]

theorem shouldPropagateShock_directionality_spec_witness :
    (Edge.mk "a" "b" "Trade" 1 0 "Active" .reverse).directionality ≠ .unset ∧
      ShouldPropagateShock
        { Edge.mk "a" "b" "Trade" 1 0 "Active" .reverse with type := "Supplies" }
        true =
      ShouldPropagateShock (Edge.mk "a" "b" "Trade" 1 0 "Active" .reverse) true :=
  ⟨by decide,
   shouldPropagateShock_directionality_spec.2
     (Edge.mk "a" "b" "Trade" 1 0 "Active" .reverse) true "Supplies" (by decide)⟩

/-! ### C9 — the static directionality/attenuation policy on
industry-membership and unknown edge types -/

/-- C9 counterexample: HasIndustry is mapped to Unidirectional (downstream),
not to Both-ways propagation as the claim states. -/
theorem getEdgeDirectionality_hasIndustry_not_bidirectional :
    GetEdgeDirectionality "HasIndustry" ≠ .bidirectional := by decide

theorem policyScn_hasIndustry_dir :
    GetEdgeDirectionality "HasIndustry" = .unidirectional := by decide

theorem policyScn_hasCompany_dir :
    GetEdgeDirectionality "HasCompany" = .unidirectional := by decide

theorem policyScn_hasIndustry_factor :
    GetShockPropagationFactor "HasIndustry" = 6/10 := by
  with_unfolding_all rfl

theorem policyScn_hasCompany_factor :
    GetShockPropagationFactor "HasCompany" = 5/10 := by
  with_unfolding_all rfl

theorem policyScn_hasIndustry_bounds :
    3/10 ≤ GetShockPropagationFactor "HasIndustry" ∧
      GetShockPropagationFactor "HasIndustry" ≤ 6/10 :=
  ⟨by with_unfolding_all rfl, by with_unfolding_all rfl⟩

theorem policyScn_hasCompany_bounds :
    3/10 ≤ GetShockPropagationFactor "HasCompany" ∧
      GetShockPropagationFactor "HasCompany" ≤ 6/10 :=
  ⟨by with_unfolding_all rfl, by with_unfolding_all rfl⟩

theorem policyDefault_unknown_types :
    ∀ ty, ty ∉ knownEdgeTypes →
      GetEdgeDirectionality ty = .bidirectional ∧
        GetShockPropagationFactor ty = 5/10 := by
  intro ty h
  constructor
  · unfold GetEdgeDirectionality
    split <;> first
      | rfl
      | exact absurd (by unfold knownEdgeTypes; repeat first
          | exact List.mem_cons_self _ _
          | apply List.mem_cons_of_mem) h
  · unfold GetShockPropagationFactor
    split <;> first
      | rfl
      | exact absurd (by unfold knownEdgeTypes; repeat first
          | exact List.mem_cons_self _ _
          | apply List.mem_cons_of_mem) h

/-- C9 (amended): the policy maps the industry-membership edge types
(HasIndustry, HasCompany) to Unidirectional propagation with attenuations 0.6
and 0.5 (both inside [0.3, 0.6]), and every unknown edge type to
Bidirectional with attenuation 0.5. -/
theorem directionality_policy_industry_and_default :
    GetEdgeDirectionality "HasIndustry" = .unidirectional ∧
    GetEdgeDirectionality "HasCompany" = .unidirectional ∧
    GetShockPropagationFactor "HasIndustry" = 6/10 ∧
    GetShockPropagationFactor "HasCompany" = 5/10 ∧
    (3/10 ≤ GetShockPropagationFactor "HasIndustry" ∧
      GetShockPropagationFactor "HasIndustry" ≤ 6/10) ∧
    (3/10 ≤ GetShockPropagationFactor "HasCompany" ∧
      GetShockPropagationFactor "HasCompany" ≤ 6/10) ∧
    (∀ ty, ty ∉ knownEdgeTypes →
      GetEdgeDirectionality ty = .bidirectional ∧
        GetShockPropagationFactor ty = 5/10) :=
  ⟨policyScn_hasIndustry_dir, policyScn_hasCompany_dir,
   policyScn_hasIndustry_factor, policyScn_hasCompany_factor,
   policyScn_hasIndustry_bounds, policyScn_hasCompany_bounds,
   policyDefault_unknown_types⟩

theorem directionality_policy_industry_and_default_witness :
    "Banana" ∉ knownEdgeTypes ∧
      (GetEdgeDirectionality "Banana" = .bidirectional ∧
        GetShockPropagationFactor "Banana" = 5/10) := by
  have hb : "Banana" ∉ knownEdgeTypes := by decide
  exact ⟨hb, directionality_policy_industry_and_default.2.2.2.2.2.2 "Banana" hb⟩

/-! ### C10 — a missing shock target aborts with no effect -/

/-- C10: when the target entity is absent, RunShock reports not-found and
returns the store unchanged — no health, weight, status or history change,
and the adjacency index is untouched. -/
theorem runShock_missing_target_no_effect
    (now : ℚ) (g : Graph) (ev : ShockEvent)
    (h : nodesFind g.Nodes ev.targetNodeID = none) :
    RunShock now g ev = (g, ⟨false, 0, [], [], []⟩) ∧
      (∀ s, GetOutgoingEdges (RunShock now g ev).1 s = GetOutgoingEdges g s) := by
  have hrun : RunShock now g ev = (g, ⟨false, 0, [], [], []⟩) := by
    unfold RunShock; rw [h]
  exact ⟨hrun, fun s => by rw [hrun]⟩

theorem runShock_missing_target_no_effect_witness :
    nodesFind gScenario.Nodes "Z" = none ∧
      RunShock 0 gScenario ⟨"Z", "gone", 1/2⟩ =
        (gScenario, ⟨false, 0, [], [], []⟩) :=
  ⟨by with_unfolding_all rfl,
   (runShock_missing_target_no_effect 0 gScenario ⟨"Z", "gone", 1/2⟩
     (by with_unfolding_all rfl)).1⟩

/-! ### C7 — decay sweeps never increase a weight -/


theorem decayStepEdge_weight_le (lambda now : ℚ) (e : Edge) :
    ((decayStepEdge lambda now e).1).weight ≤ e.weight := by
  unfold decayStepEdge
  by_cases hg : now - e.timestamp < 1/24
  · rw [if_pos hg]
  · rw [if_neg hg]
    by_cases hc : e.weight - decayNewWeight lambda now e > 1/1000
    · rw [if_pos hc]
      have : decayNewWeight lambda now e ≤ e.weight := by linarith
      simpa using this
    · rw [if_neg hc]

theorem decayFold_edges (lambda now : ℚ) (es : List Edge)
    (hs : List (String × EdgeHistory)) :
    (decayFold lambda now es hs).1 =
      es.map (fun e => (decayStepEdge lambda now e).1) := by
  induction es generalizing hs with
  | nil => rfl
  | cons e rest ih =>
    unfold decayFold
    simp only [List.map_cons]
    rw [← ih (if (decayStepEdge lambda now e).2 then
      recordEdgeHistory hs (decayStepEdge lambda now e).1 "temporal_decay" else hs)]

theorem applyTemporalDecay_forall2 (lambda now : ℚ) (g : Graph) :
    List.Forall₂ (fun e' e => e'.weight ≤ e.weight)
      ((ApplyTemporalDecay lambda now g).1).Edges g.Edges := by
  have he : ((ApplyTemporalDecay lambda now g).1).Edges =
      g.Edges.map (fun e => (decayStepEdge lambda now e).1) := by
    unfold ApplyTemporalDecay
    exact decayFold_edges lambda now g.Edges g.EdgeHistories
  rw [he]
  induction g.Edges with
  | nil => exact List.Forall₂.nil
  | cons e rest ih =>
    exact List.Forall₂.cons (decayStepEdge_weight_le lambda now e) ih

theorem forall2_weight_le_trans {l1 l2 l3 : List Edge}
    (h1 : List.Forall₂ (fun e' e => e'.weight ≤ e.weight) l1 l2)
    (h2 : List.Forall₂ (fun e' e => e'.weight ≤ e.weight) l2 l3) :
    List.Forall₂ (fun e' e => e'.weight ≤ e.weight) l1 l3 := by
  induction h1 generalizing l3 with
  | nil => cases h2; exact List.Forall₂.nil
  | cons hab hrest ih =>
    cases h2 with
    | cons hbc hrest2 => exact List.Forall₂.cons (le_trans hab hbc) (ih hrest2)

/-- C7: for every decay rate λ > 0 and edge, absent intervening sentiment
updates, any sequence of ApplyTemporalDecay sweeps leaves every edge weight at
or below its starting value (edges are compared positionally; sweeps preserve
the edge list's length and order). The commit guard makes this hold for any
λ, and in particular for every λ > 0 as claimed. -/
theorem applyTemporalDecay_monotone_nonincreasing
    (lambda : ℚ) (hl : 0 < lambda) (nows : List ℚ) (g : Graph) :
    List.Forall₂ (fun e' e => e'.weight ≤ e.weight)
      (iterateDecay lambda nows g).Edges g.Edges := by
  clear hl
  induction nows generalizing g with
  | nil =>
    unfold iterateDecay
    simp only [List.foldl_nil]
    induction g.Edges with
    | nil => exact List.Forall₂.nil
    | cons e rest ih => exact List.Forall₂.cons le_rfl ih
  | cons n rest ih =>
    have hstep := applyTemporalDecay_forall2 lambda n g
    have hrest := ih (ApplyTemporalDecay lambda n g).1
    exact forall2_weight_le_trans hrest hstep

theorem applyTemporalDecay_monotone_nonincreasing_witness :
    (0 : ℚ) < 1/20 ∧
      List.Forall₂ (fun e' e => e'.weight ≤ e.weight)
        (iterateDecay (1/20) [10, 20] gScenario).Edges gScenario.Edges :=
  ⟨by norm_num,
   applyTemporalDecay_monotone_nonincreasing (1/20) (by norm_num) [10, 20]
     gScenario⟩

/-! ### C8 — an immediate second decay sweep changes nothing -/

/-- A skipped edge is returned unchanged with the false flag. -/
theorem decayStepEdge_skip (lambda now : ℚ) (e : Edge)
    (h : (decayStepEdge lambda now e).2 = false) :
    decayStepEdge lambda now e = (e, false) := by
  unfold decayStepEdge at h ⊢
  by_cases hg : now - e.timestamp < 1/24
  · rw [if_pos hg]
  · rw [if_neg hg] at h ⊢
    by_cases hc : e.weight - decayNewWeight lambda now e > 1/1000
    · rw [if_pos hc] at h
      simp at h
    · rw [if_neg hc]

theorem decayStepEdge_idem (lambda now : ℚ) (e : Edge) :
    decayStepEdge lambda now ((decayStepEdge lambda now e).1) =
      ((decayStepEdge lambda now e).1, false) := by
  cases hu : (decayStepEdge lambda now e).2 with
  | false =>
    have hs := decayStepEdge_skip lambda now e hu
    rw [hs]
    exact hs
  | true =>
    unfold decayStepEdge at hu ⊢
    by_cases hg : now - e.timestamp < 1/24
    · rw [if_pos hg] at hu
      simp at hu
    · rw [if_neg hg] at hu ⊢
      by_cases hc : e.weight - decayNewWeight lambda now e > 1/1000
      · rw [if_pos hc]
        have hts : now -
            ({ e with weight := decayNewWeight lambda now e, timestamp := now,
                      status := bandStatus (decayNewWeight lambda now e) } :
              Edge).timestamp < 1/24 := by
          simp only []
          rw [sub_self]
          norm_num
        rw [if_pos hts]
      · rw [if_neg hc] at hu
        simp at hu

theorem decayFold_no_change (lambda now : ℚ) (es : List Edge)
    (hs : List (String × EdgeHistory))
    (h : ∀ e ∈ es, decayStepEdge lambda now e = (e, false)) :
    decayFold lambda now es hs = (es, hs, 0) := by
  induction es with
  | nil => rfl
  | cons e rest ih =>
    have he := h e (List.mem_cons_self e rest)
    unfold decayFold
    rw [he]
    simp only [Bool.false_eq_true, if_false]
    rw [ih (fun x hx => h x (List.mem_cons_of_mem e hx))]

/-- C8: immediately repeating ApplyTemporalDecay with no elapsed time changes
nothing: every edge the first sweep updated is rejected by the under-one-hour
guard (its new timestamp is the sweep time), every edge the first sweep
skipped is skipped identically again, and the second sweep returns the same
graph with a changed-edge count of 0. -/
theorem applyTemporalDecay_immediate_twice
    (lambda now : ℚ) (g : Graph) :
    ApplyTemporalDecay lambda now (ApplyTemporalDecay lambda now g).1 =
      ((ApplyTemporalDecay lambda now g).1, 0) ∧
    (∀ e ∈ g.Edges, (decayStepEdge lambda now e).2 = true →
      now - ((decayStepEdge lambda now e).1).timestamp < 1/24) ∧
    (∀ e ∈ g.Edges, (decayStepEdge lambda now e).2 = false →
      decayStepEdge lambda now ((decayStepEdge lambda now e).1) = (e, false)) := by
  refine ⟨?_, ?_, ?_⟩
  · have hedges : ((ApplyTemporalDecay lambda now g).1).Edges =
        g.Edges.map (fun e => (decayStepEdge lambda now e).1) := by
      unfold ApplyTemporalDecay
      exact decayFold_edges lambda now g.Edges g.EdgeHistories
    have hall : ∀ e ∈ ((ApplyTemporalDecay lambda now g).1).Edges,
        decayStepEdge lambda now e = (e, false) := by
      rw [hedges]
      intro e he
      obtain ⟨e0, _, rfl⟩ := List.mem_map.mp he
      exact decayStepEdge_idem lambda now e0
    generalize (ApplyTemporalDecay lambda now g).1 = g1 at hall
    unfold ApplyTemporalDecay
    rw [decayFold_no_change lambda now g1.Edges g1.EdgeHistories hall]
  · intro e _ hup
    unfold decayStepEdge at hup ⊢
    by_cases hg : now - e.timestamp < 1/24
    · rw [if_pos hg] at hup
      simp at hup
    · rw [if_neg hg] at hup ⊢
      by_cases hc : e.weight - decayNewWeight lambda now e > 1/1000
      · rw [if_pos hc]
        simp only []
        rw [sub_self]
        norm_num
      · rw [if_neg hc] at hup
        simp at hup
  · intro e _ hskip
    have hs := decayStepEdge_skip lambda now e hskip
    rw [hs]
    exact hs

theorem applyTemporalDecay_immediate_twice_witness :
    ApplyTemporalDecay (1/20) 10 (ApplyTemporalDecay (1/20) 10 gScenario).1 =
      ((ApplyTemporalDecay (1/20) 10 gScenario).1, 0) :=
  (applyTemporalDecay_immediate_twice (1/20) 10 gScenario).1

/-! ### C3 — the health range invariant -/


theorem clampHealth_bounds (x : ℚ) :
    1/10 ≤ clampHealth x ∧ clampHealth x ≤ 2 := by
  unfold clampHealth
  by_cases h1 : x < 1/10
  · rw [if_pos h1]
    norm_num
  · rw [if_neg h1]
    by_cases h2 : x > 2
    · rw [if_pos h2]
      norm_num
    · rw [if_neg h2]
      constructor <;> linarith

theorem mem_nodesSet {ns : List (String × Node)} {id : String} {n : Node}
    {p : String × Node} (h : p ∈ nodesSet ns id n) :
    p = (id, n) ∨ p ∈ ns := by
  unfold nodesSet at h
  by_cases hex : ns.any (fun p => p.1 == id)
  · rw [if_pos hex] at h
    obtain ⟨q, hq, hfq⟩ := List.mem_map.mp h
    by_cases hqi : q.1 == id
    · rw [if_pos hqi] at hfq
      exact Or.inl hfq.symm
    · rw [if_neg hqi] at hfq
      exact Or.inr (hfq ▸ hq)
  · rw [if_neg hex] at h
    rcases List.mem_append.mp h with hin | hone
    · exact Or.inr hin
    · exact Or.inl (List.mem_singleton.mp hone)

theorem updateNodeHealth_inv {g : Graph} (id : String) (delta : ℚ)
    (h : healthInv g) : healthInv (UpdateNodeHealth g id delta).1 := by
  unfold UpdateNodeHealth
  cases hf : nodesFind g.Nodes id with
  | none => exact h
  | some node =>
    intro p hp
    rcases mem_nodesSet hp with rfl | hin
    · exact clampHealth_bounds _
    · exact h p hin

theorem updateEdgeWeight_nodes {now : ℚ} {g : Graph}
    {sourceID targetID edgeType : String} {s r : ℚ} {eventID : String}
    {g' : Graph} {e' : Edge}
    (h : UpdateEdgeWeight now g sourceID targetID edgeType s r eventID =
      some (g', e')) : g'.Nodes = g.Nodes := by
  unfold UpdateEdgeWeight at h
  cases hi : g.Edges.findIdx? (fun e =>
      e.sourceID == sourceID && e.targetID == targetID && e.type == edgeType) with
  | none => rw [hi] at h; cases h
  | some i =>
    rw [hi] at h
    simp only [Option.some.injEq, Prod.mk.injEq] at h
    rw [← h.1]

/-- Fold preservation of a state predicate. -/
theorem foldl_preserves {α β : Type} (P : β → Prop) (f : β → α → β)
    (hf : ∀ b a, P b → P (f b a)) :
    ∀ (l : List α) (b : β), P b → P (l.foldl f b) := by
  intro l
  induction l with
  | nil => intro b hb; exact hb
  | cons a rest ih =>
    intro b hb
    exact ih (f b a) (hf b a hb)

theorem firstOrderStep_inv (now ei : ℚ) (tid : String) (st : ShockState)
    (idx : Nat) (h : healthInv st.g) :
    healthInv (firstOrderStep now ei tid st idx).g := by
  unfold firstOrderStep
  dsimp only
  by_cases hsp : (!ShouldPropagateShock (st.g.Edges.getD idx default) true) = true
  · rw [if_pos hsp]
    exact h
  · rw [if_neg hsp]
    cases hu : UpdateEdgeWeight now st.g (st.g.Edges.getD idx default).sourceID
        (st.g.Edges.getD idx default).targetID (st.g.Edges.getD idx default).type
        (-(1 - ei)) 1 ("shock_" ++ tid ++ "_" ++ Nat.repr st.act.length) with
    | none => exact h
    | some pair =>
      obtain ⟨g', e'⟩ := pair
      have hn : g'.Nodes = st.g.Nodes := updateEdgeWeight_nodes hu
      exact updateNodeHealth_inv _ _ (fun p hp => h p (hn ▸ hp))

theorem reverseStep_inv (now ei : ℚ) (tid : String) (st : ShockState)
    (idx : Nat) (h : healthInv st.g) :
    healthInv (reverseStep now ei tid st idx).g := by
  unfold reverseStep
  dsimp only
  by_cases ht : ((st.g.Edges.getD idx default).targetID != tid) = true
  · rw [if_pos ht]
    exact h
  · rw [if_neg ht]
    by_cases hsp :
        (!ShouldPropagateShock (st.g.Edges.getD idx default) false) = true
    · rw [if_pos hsp]
      exact h
    · rw [if_neg hsp]
      cases hf : nodesFind st.g.Nodes (st.g.Edges.getD idx default).sourceID with
      | none => exact h
      | some node =>
        cases hu : UpdateEdgeWeight now st.g
            (st.g.Edges.getD idx default).sourceID
            (st.g.Edges.getD idx default).targetID
            (st.g.Edges.getD idx default).type
            (-(1 - ei)) 1 ("shock_" ++ tid ++ "_reverse") with
        | none => exact h
        | some pair =>
          obtain ⟨g', e'⟩ := pair
          have hn : g'.Nodes = st.g.Nodes := updateEdgeWeight_nodes hu
          exact updateNodeHealth_inv _ _ (fun p hp => h p (hn ▸ hp))

theorem secondOrderInnerStep_nodes (now : ℚ) (tid iid : String)
    (activation : ℚ) (s : Graph × List (String × ℚ)) (idx : Nat) :
    ((secondOrderInnerStep now tid iid activation s idx).1).Nodes = s.1.Nodes := by
  unfold secondOrderInnerStep
  dsimp only
  cases hu : UpdateEdgeWeight now s.1 (s.1.Edges.getD idx default).sourceID
      (s.1.Edges.getD idx default).targetID (s.1.Edges.getD idx default).type
      (-activation * (1/2)) (7/10) ("shock_" ++ tid ++ "_2nd_" ++ iid) with
  | none => rfl
  | some pair =>
    obtain ⟨g', e'⟩ := pair
    exact updateEdgeWeight_nodes hu

theorem secondOrderOuterStep_inv (now : ℚ) (tid : String)
    (s : Graph × List (String × ℚ)) (iid : String) (h : healthInv s.1) :
    healthInv (secondOrderOuterStep now tid s iid).1 := by
  unfold secondOrderOuterStep
  dsimp only
  by_cases hth : actGet s.2 iid < 1/20
  · rw [if_pos hth]
    exact h
  · rw [if_neg hth]
    unfold secondOrderInner
    refine foldl_preserves (fun s => healthInv s.1) _ ?_ _ s h
    intro b a hb
    intro p hp
    exact hb p ((secondOrderInnerStep_nodes now tid iid _ b a) ▸ hp)

theorem runShock_inv (now : ℚ) (g : Graph) (ev : ShockEvent)
    (h : healthInv g) : healthInv (RunShock now g ev).1 := by
  unfold RunShock
  cases hf : nodesFind g.Nodes ev.targetNodeID with
  | none => exact h
  | some target =>
    dsimp only
    unfold secondOrderLoop
    apply foldl_preserves (fun (s : Graph × List (String × ℚ)) => healthInv s.1)
      (secondOrderOuterStep now ev.targetNodeID)
      (secondOrderOuterStep_inv now ev.targetNodeID)
    dsimp only
    unfold winnersBoostLoop
    apply foldl_preserves healthInv
      (fun g w => (UpdateNodeHealth g w (3/20)).1)
      (fun b a hb => updateNodeHealth_inv a (3/20) hb)
    unfold reverseLoop
    apply foldl_preserves (fun (s : ShockState) => healthInv s.g)
      (reverseStep now _ ev.targetNodeID)
      (reverseStep_inv now _ ev.targetNodeID)
    unfold firstOrderLoop
    apply foldl_preserves (fun (s : ShockState) => healthInv s.g)
      (firstOrderStep now _ ev.targetNodeID)
      (firstOrderStep_inv now _ ev.targetNodeID)
    exact updateNodeHealth_inv _ _ h

/-- C3 counterexample: `AddNode` performs no clamping, so adding an entity
with health 3.0 leaves an out-of-range health in the store — the claim fails
for the add-or-overwrite mutation. -/
theorem addNode_health_unclamped :
    nodesFind (AddNode NewGraph ⟨"X", "Corporation", "X", 3⟩).Nodes "X" =
      some ⟨"X", "Corporation", "X", 3⟩ ∧
    ¬ healthInv (AddNode NewGraph ⟨"X", "Corporation", "X", 3⟩) := by
  constructor
  · with_unfolding_all rfl
  · intro h
    have hlist : (AddNode NewGraph ⟨"X", "Corporation", "X", 3⟩).Nodes =
        [("X", ⟨"X", "Corporation", "X", 3⟩)] := by with_unfolding_all rfl
    have hmem : ("X", (⟨"X", "Corporation", "X", 3⟩ : Node)) ∈
        (AddNode NewGraph ⟨"X", "Corporation", "X", 3⟩).Nodes := by
      rw [hlist]
      exact List.mem_singleton_self _
    have := h ("X", ⟨"X", "Corporation", "X", 3⟩) hmem
    norm_num at this

/-- C3 (amended): UpdateNodeHealth always clamps to [0.1, 2.0], so the health
invariant is preserved by health updates, shocks and decay sweeps; AddNode
defaults a zero health to 1.0 but stores a caller-supplied nonzero health
unclamped, so adding an entity preserves the invariant only when the supplied
health is 0 or already in range. -/
theorem health_invariant_preserved :
    (∀ (g : Graph) (id : String) (delta : ℚ),
      (UpdateNodeHealth g id delta).2.2 = true →
        1/10 ≤ (UpdateNodeHealth g id delta).2.1 ∧
          (UpdateNodeHealth g id delta).2.1 ≤ 2) ∧
    (∀ (g : Graph) (id : String) (delta : ℚ), healthInv g →
      healthInv (UpdateNodeHealth g id delta).1) ∧
    (∀ (g : Graph) (n : Node), healthInv g →
      (n.health = 0 ∨ (1/10 ≤ n.health ∧ n.health ≤ 2)) →
      healthInv (AddNode g n)) ∧
    (∀ (now : ℚ) (g : Graph) (ev : ShockEvent), healthInv g →
      healthInv (RunShock now g ev).1) ∧
    (∀ (lambda now : ℚ) (g : Graph), healthInv g →
      healthInv (ApplyTemporalDecay lambda now g).1) := by
  refine ⟨?_, ?_, ?_, ?_, ?_⟩
  · intro g id delta hfound
    unfold UpdateNodeHealth at hfound ⊢
    cases hf : nodesFind g.Nodes id with
    | none => rw [hf] at hfound; cases hfound
    | some node => exact clampHealth_bounds _
  · intro g id delta h
    exact updateNodeHealth_inv id delta h
  · intro g n h hrange
    unfold AddNode
    by_cases hz : n.health = 0
    · rw [if_pos hz]
      intro p hp
      rcases mem_nodesSet hp with rfl | hin
      · norm_num
      · exact h p hin
    · rw [if_neg hz]
      intro p hp
      rcases mem_nodesSet hp with rfl | hin
      · rcases hrange with h0 | hr
        · exact absurd h0 hz
        · exact hr
      · exact h p hin
  · intro now g ev h
    exact runShock_inv now g ev h
  · intro lambda now g h
    have hn : ((ApplyTemporalDecay lambda now g).1).Nodes = g.Nodes := rfl
    intro p hp
    exact h p (hn ▸ hp)

theorem health_invariant_preserved_witness :
    healthInv gScenario ∧
      healthInv (RunShock 0 gScenario ⟨"A", "w", 1/10⟩).1 := by
  have hinv : ∀ p ∈ gScenario.Nodes, 1/10 ≤ p.2.health ∧ p.2.health ≤ 2 :=
    of_decide_eq_true (by with_unfolding_all rfl)
  exact ⟨hinv,
    health_invariant_preserved.2.2.2.1 0 gScenario ⟨"A", "w", 1/10⟩ hinv⟩

/-! ### C6 — save/load round trip -/



theorem migrate_id (es : List Edge)
    (h : ∀ e ∈ es, e.directionality ≠ EdgeDirectionality.unset) :
    es.map (fun e =>
      if e.directionality = .unset then
        { e with directionality := GetEdgeDirectionality e.type }
      else e) = es := by
  induction es with
  | nil => rfl
  | cons e rest ih =>
    simp only [List.map_cons]
    rw [if_neg (h e (List.mem_cons_self e rest)),
      ih (fun x hx => h x (List.mem_cons_of_mem e hx))]

theorem discoverLoop_nil (nodes : List (String × Node)) (es : List Edge)
    (keys : List String)
    (h : ∀ e ∈ es, discoverStep nodes e keys = ([], keys)) :
    discoverLoop nodes es keys = [] := by
  induction es with
  | nil => rfl
  | cons e rest ih =>
    unfold discoverLoop
    rw [h e (List.mem_cons_self e rest)]
    simp only [List.nil_append]
    exact ih (fun x hx => h x (List.mem_cons_of_mem e hx))

theorem discover_id (g : Graph) (h : supplyPairsComplete g) :
    DiscoverSupplyChainRelations g = (g, 0) := by
  unfold DiscoverSupplyChainRelations
  dsimp only
  rw [discoverLoop_nil g.Nodes g.Edges (g.Edges.map edgeKey) h,
    List.append_nil]
  rfl

/-- C6 counterexample: saving then loading `gDepends` (one DependsOn edge
between two corporations) yields three edges, not the saved edge multiset —
`Load` appends the discovered Supplies and ProcuresFrom counterparts. -/
theorem load_adds_discovered_edges :
    (Load (Save gDepends)).Edges.length = 3 ∧ gDepends.Edges.length = 1 ∧
      (Load (Save gDepends)).Edges ≠ gDepends.Edges :=
  of_decide_eq_true (by with_unfolding_all rfl)

/-- C6 (amended): save-then-load reproduces the graph exactly — same entity
set, same edge multiset with weight/status/directionality intact, and the
rebuilt adjacency index equal to the pre-save one — provided every edge
already carries a directionality (otherwise `Load` resolves it from the type
table) and no corporation-to-corporation DependsOn edge lacks its
Supplies/ProcuresFrom counterparts (otherwise `Load` appends the discovered
edges). -/
theorem save_load_roundtrip (g : Graph)
    (hdir : allDirectionalitySet g) (hpairs : supplyPairsComplete g) :
    Load (Save g) = g ∧
      (∀ s, GetOutgoingEdges (Load (Save g)) s = GetOutgoingEdges g s) := by
  have hload : Load (Save g) = g := by
    unfold Load Save
    dsimp only
    rw [migrate_id g.Edges hdir]
    show (DiscoverSupplyChainRelations g).1 = g
    rw [discover_id g hpairs]
  exact ⟨hload, fun s => by rw [hload]⟩

theorem save_load_roundtrip_witness :
    allDirectionalitySet gScenario ∧ supplyPairsComplete gScenario ∧
      Load (Save gScenario) = gScenario := by
  have h1 : ∀ e ∈ gScenario.Edges,
      e.directionality ≠ EdgeDirectionality.unset :=
    of_decide_eq_true (by with_unfolding_all rfl)
  have h2 : ∀ e ∈ gScenario.Edges,
      discoverStep gScenario.Nodes e (gScenario.Edges.map edgeKey) =
        ([], gScenario.Edges.map edgeKey) :=
    of_decide_eq_true (by with_unfolding_all rfl)
  exact ⟨h1, h2, (save_load_roundtrip gScenario h1 h2).1⟩

/-! ### C1 — RunShock: resilience, effective impact, and the §8 scenario -/

/-- The floor-at-0.1 used for resilience equals a max. -/
theorem floorTenth_eq_max (x : ℚ) :
    (if x ≤ 1/10 then (1/10 : ℚ) else x) = max (1/10) x := by
  by_cases h : x ≤ 1/10
  · rw [if_pos h, max_eq_left h]
  · rw [if_neg h, max_eq_right (le_of_lt (not_le.mp h))]

/-- The sequential two-if clamp of the effective impact equals
`max 0 (min 1 ·)`. -/
theorem seqClamp01_eq_max_min (x : ℚ) :
    (if (if x < 0 then (0 : ℚ) else x) > 1 then (1 : ℚ)
     else if x < 0 then 0 else x) = max 0 (min 1 x) := by
  by_cases h2 : x < 0
  · rw [if_pos h2, if_neg (by norm_num : ¬(0 : ℚ) > 1),
      min_eq_right (by linarith : x ≤ 1), max_eq_left (by linarith : x ≤ 0)]
  · rw [if_neg h2]
    by_cases h1 : x > 1
    · rw [if_pos h1, min_eq_left (le_of_lt h1),
        max_eq_right (by norm_num : (0 : ℚ) ≤ 1)]
    · rw [if_neg h1, min_eq_right (by linarith : x ≤ 1),
        max_eq_right (by linarith : (0 : ℚ) ≤ x)]

theorem scenario_full :
    RunShock 0 gScenario ⟨"A", "shock", 1/10⟩ =
      (gScenarioAfter, scenarioAfterResult) := by
  with_unfolding_all rfl

theorem scenario_effImpact :
    (RunShock 0 gScenario ⟨"A", "shock", 1/10⟩).2.effectiveImpact = 1/10 := by
  rw [scenario_full]
  rfl

theorem scenario_targetHealth :
    nodesFind (RunShock 0 gScenario ⟨"A", "shock", 1/10⟩).1.Nodes "A" =
      some ⟨"A", "Corporation", "A", 4/5⟩ := by
  rw [scenario_full]
  with_unfolding_all rfl

theorem scenario_neighborHealth :
    nodesFind (RunShock 0 gScenario ⟨"A", "shock", 1/10⟩).1.Nodes "B" =
      some ⟨"B", "Corporation", "B", 919/1000⟩ := by
  rw [scenario_full]
  with_unfolding_all rfl

theorem scenario_edge :
    (RunShock 0 gScenario ⟨"A", "shock", 1/10⟩).1.Edges =
      [⟨"A", "B", "Supplies", 0, 0, "Blocked", .unidirectional⟩] := by
  rw [scenario_full]
  rfl

theorem scenario_act :
    (RunShock 0 gScenario ⟨"A", "shock", 1/10⟩).2.act =
      [("A", 9/10), ("B", 0)] := by
  rw [scenario_full]
  rfl

theorem scenario_impacted :
    (RunShock 0 gScenario ⟨"A", "shock", 1/10⟩).2.impacted = ["B"] := by
  rw [scenario_full]
  rfl

set_option maxRecDepth 4000 in
/-- C1: for every shock on a present target, RunShock's effective impact is
`1 − (1 − impactFactor)/resilience` clamped to [0,1], with resilience the
target's health floored at 0.1; and on the §8 scenario (A health 1.0,
Supplies edge of weight 0.9 to B, impactFactor 0.1) the effective impact is
0.1, the target ends at health 0.8, the Supplies edge drops to weight 0
(sentiment −0.9 · relevance 1 applied) with status Blocked, B's health drops
to 0.919 (delta −0.1·0.9·0.9), and B's recorded activation energy is
(1 − 0.1) · (post-update weight 0) · 0.9 = 0. -/
theorem runShock_effective_impact_and_scenario :
    (∀ (now : ℚ) (g : Graph) (ev : ShockEvent) (t : Node),
      nodesFind g.Nodes ev.targetNodeID = some t →
      (RunShock now g ev).2.effectiveImpact =
        max 0 (min 1 (1 - (1 - ev.impactFactor) / max (1/10) t.health))) ∧
    ((RunShock 0 gScenario ⟨"A", "shock", 1/10⟩).2.effectiveImpact = 1/10 ∧
     nodesFind (RunShock 0 gScenario ⟨"A", "shock", 1/10⟩).1.Nodes "A" =
       some ⟨"A", "Corporation", "A", 4/5⟩ ∧
     nodesFind (RunShock 0 gScenario ⟨"A", "shock", 1/10⟩).1.Nodes "B" =
       some ⟨"B", "Corporation", "B", 919/1000⟩ ∧
     (RunShock 0 gScenario ⟨"A", "shock", 1/10⟩).1.Edges =
       [⟨"A", "B", "Supplies", 0, 0, "Blocked", .unidirectional⟩] ∧
     (RunShock 0 gScenario ⟨"A", "shock", 1/10⟩).2.act =
       [("A", 9/10), ("B", 0)] ∧
     (RunShock 0 gScenario ⟨"A", "shock", 1/10⟩).2.impacted = ["B"]) := by
  constructor
  · intro now g ev t h
    unfold RunShock
    rw [h]
    dsimp only
    rw [floorTenth_eq_max, seqClamp01_eq_max_min]
  · exact ⟨scenario_effImpact, scenario_targetHealth, scenario_neighborHealth,
      scenario_edge, scenario_act, scenario_impacted⟩

theorem runShock_effective_impact_and_scenario_witness :
    nodesFind gScenario.Nodes "A" = some ⟨"A", "Corporation", "A", 1⟩ ∧
      (RunShock 5 gScenario ⟨"A", "w", 3/10⟩).2.effectiveImpact =
        max 0 (min 1 (1 - (1 - (3/10)) / max (1/10) 1)) :=
  ⟨by with_unfolding_all rfl,
   runShock_effective_impact_and_scenario.1 5 gScenario ⟨"A", "w", 3/10⟩
     ⟨"A", "Corporation", "A", 1⟩ (by with_unfolding_all rfl)⟩

/-! ### C5 — winner identification -/

theorem foldl_subset {α : Type} (f : List String → α → List String)
    (hf : ∀ acc a, acc ⊆ f acc a) :
    ∀ (l : List α) (acc : List String), acc ⊆ l.foldl f acc := by
  intro l
  induction l with
  | nil => intro acc; exact List.Subset.refl acc
  | cons a rest ih =>
    intro acc
    exact (hf acc a).trans (ih (f acc a))

theorem foldl_mem_of_mem {α : Type} (f : List String → α → List String)
    (hf : ∀ acc a, acc ⊆ f acc a) (es : List α) (e : α) (he : e ∈ es)
    (x : String) (hx : ∀ acc, x ∈ f acc e) :
    ∀ acc, x ∈ es.foldl f acc := by
  obtain ⟨l1, l2, rfl⟩ := List.append_of_mem he
  intro acc
  rw [List.foldl_append, List.foldl_cons]
  exact foldl_subset f hf l2 _ (hx _)

theorem foldl_mem_inv {α : Type} (f : List String → α → List String)
    (Q : String → α → Prop)
    (hf : ∀ acc a x, x ∈ f acc a → x ∈ acc ∨ Q x a) :
    ∀ (l : List α) (acc : List String) (x : String),
      x ∈ l.foldl f acc → x ∈ acc ∨ ∃ a ∈ l, Q x a := by
  intro l
  induction l with
  | nil => intro acc x hx; exact Or.inl hx
  | cons a rest ih =>
    intro acc x hx
    rw [List.foldl_cons] at hx
    rcases ih (f acc a) x hx with h1 | ⟨a', ha', hq⟩
    · rcases hf acc a x h1 with h2 | hq
      · exact Or.inl h2
      · exact Or.inr ⟨a, List.mem_cons_self a rest, hq⟩
    · exact Or.inr ⟨a', List.mem_cons_of_mem _ ha', hq⟩

theorem strategy2Step_subset (id : String) (acc : List String) (e : Edge) :
    acc ⊆ winnersStrategy2Step id acc e := by
  unfold winnersStrategy2Step
  dsimp only
  have h1 : acc ⊆ (if e.type == "CompetesWith" then
      if e.sourceID == id then acc ++ [e.targetID]
      else if e.targetID == id then acc ++ [e.sourceID] else acc
    else acc) := by
    split
    · split
      · exact List.subset_append_left _ _
      · split
        · exact List.subset_append_left _ _
        · exact List.Subset.refl _
    · exact List.Subset.refl _
  split
  · exact h1.trans (List.subset_append_left _ _)
  · exact h1

theorem strategy2Step_competes_source (id : String) (acc : List String)
    (e : Edge) (ht : e.type = "CompetesWith") (hs : e.sourceID = id) :
    e.targetID ∈ winnersStrategy2Step id acc e := by
  unfold winnersStrategy2Step
  dsimp only
  have hc1 : (e.type == "CompetesWith") = true := by rw [ht]; decide
  have hsub : (e.type == "SubstituteFor" && e.targetID == id) = false := by
    rw [ht, show (("CompetesWith" : String) == "SubstituteFor") = false from
      by decide, Bool.false_and]
  have hc2 : (e.sourceID == id) = true := by rw [hs]; exact beq_self_eq_true id
  rw [if_neg (by rw [hsub]; exact Bool.false_ne_true),
    if_pos (by rw [hc1] : (e.type == "CompetesWith") = true),
    if_pos (by rw [hc2] : (e.sourceID == id) = true)]
  exact List.mem_append_right acc (List.mem_singleton_self _)

theorem strategy2Step_competes_target (id : String) (acc : List String)
    (e : Edge) (ht : e.type = "CompetesWith") (htg : e.targetID = id)
    (hs : e.sourceID ≠ id) :
    e.sourceID ∈ winnersStrategy2Step id acc e := by
  unfold winnersStrategy2Step
  dsimp only
  have hsub : (e.type == "SubstituteFor" && e.targetID == id) = false := by
    rw [ht, show (("CompetesWith" : String) == "SubstituteFor") = false from
      by decide, Bool.false_and]
  have hc1 : (e.type == "CompetesWith") = true := by rw [ht]; decide
  have hc2 : (e.sourceID == id) = false := beq_eq_false_iff_ne.mpr hs
  have hc3 : (e.targetID == id) = true := by rw [htg]; exact beq_self_eq_true id
  rw [if_neg (by rw [hsub]; exact Bool.false_ne_true),
    if_pos (by rw [hc1] : (e.type == "CompetesWith") = true),
    if_neg (by rw [hc2]; exact Bool.false_ne_true),
    if_pos (by rw [hc3] : (e.targetID == id) = true)]
  exact List.mem_append_right acc (List.mem_singleton_self _)

theorem strategy2Step_substitute (id : String) (acc : List String)
    (e : Edge) (ht : e.type = "SubstituteFor") (htg : e.targetID = id) :
    e.sourceID ∈ winnersStrategy2Step id acc e := by
  unfold winnersStrategy2Step
  dsimp only
  have houter : (e.type == "SubstituteFor" && e.targetID == id) = true := by
    rw [ht, htg, beq_self_eq_true, Bool.true_and]
    exact beq_self_eq_true id
  rw [if_pos (by rw [houter] : (e.type == "SubstituteFor" && e.targetID == id) = true)]
  exact List.mem_append_right _ (List.mem_singleton_self _)

theorem strategy2Step_inv (id : String) (acc : List String) (e : Edge)
    (x : String) (hx : x ∈ winnersStrategy2Step id acc e) :
    x ∈ acc ∨
    (e.type = "CompetesWith" ∧ e.sourceID = id ∧ x = e.targetID) ∨
    (e.type = "CompetesWith" ∧ e.sourceID ≠ id ∧ e.targetID = id ∧
      x = e.sourceID) ∨
    (e.type = "SubstituteFor" ∧ e.targetID = id ∧ x = e.sourceID) := by
  unfold winnersStrategy2Step at hx
  dsimp only at hx
  have hacc1 : ∀ y, y ∈ (if e.type == "CompetesWith" then
      if e.sourceID == id then acc ++ [e.targetID]
      else if e.targetID == id then acc ++ [e.sourceID] else acc
    else acc) →
      y ∈ acc ∨ (e.type = "CompetesWith" ∧ e.sourceID = id ∧ y = e.targetID) ∨
        (e.type = "CompetesWith" ∧ e.sourceID ≠ id ∧ e.targetID = id ∧
          y = e.sourceID) := by
    intro y hy
    by_cases hcomp : (e.type == "CompetesWith") = true
    · rw [if_pos hcomp] at hy
      by_cases hsrc : (e.sourceID == id) = true
      · rw [if_pos hsrc] at hy
        rcases List.mem_append.mp hy with h1 | h2
        · exact Or.inl h1
        · exact Or.inr (Or.inl ⟨beq_iff_eq.mp hcomp, beq_iff_eq.mp hsrc,
            List.mem_singleton.mp h2⟩)
      · rw [if_neg hsrc] at hy
        by_cases htg2 : (e.targetID == id) = true
        · rw [if_pos htg2] at hy
          rcases List.mem_append.mp hy with h1 | h2
          · exact Or.inl h1
          · refine Or.inr (Or.inr ⟨beq_iff_eq.mp hcomp, ?_,
              beq_iff_eq.mp htg2, List.mem_singleton.mp h2⟩)
            intro heq
            exact hsrc (by rw [heq]; exact beq_self_eq_true id)
        · rw [if_neg htg2] at hy
          exact Or.inl hy
    · rw [if_neg hcomp] at hy
      exact Or.inl hy
  by_cases houter : (e.type == "SubstituteFor" && e.targetID == id) = true
  · rw [if_pos houter] at hx
    rcases List.mem_append.mp hx with h1 | h2
    · rcases hacc1 x h1 with ha | hb | hc
      · exact Or.inl ha
      · exact Or.inr (Or.inl hb)
      · exact Or.inr (Or.inr (Or.inl hc))
    · obtain ⟨hsub, htg⟩ := Bool.and_eq_true_iff.mp houter
      exact Or.inr (Or.inr (Or.inr ⟨beq_iff_eq.mp hsub, beq_iff_eq.mp htg,
        List.mem_singleton.mp h2⟩))
  · rw [if_neg houter] at hx
    rcases hacc1 x hx with ha | hb | hc
    · exact Or.inl ha
    · exact Or.inr (Or.inl hb)
    · exact Or.inr (Or.inr (Or.inl hc))

theorem mem_getOutgoingEdges (g : Graph) (id : String) (e : Edge) :
    e ∈ GetOutgoingEdges g id ↔ e ∈ g.Edges ∧ e.sourceID = id := by
  unfold GetOutgoingEdges
  rw [List.mem_filter]
  constructor
  · rintro ⟨h1, h2⟩
    exact ⟨h1, beq_iff_eq.mp h2⟩
  · rintro ⟨h1, h2⟩
    exact ⟨h1, beq_iff_eq.mpr h2⟩

theorem findSubstitutes_mem (g : Graph) (c : String) (p : String × Node)
    (hp : p ∈ g.Nodes) (e2 : Edge) (he2 : e2 ∈ GetOutgoingEdges g p.2.id)
    (ht : e2.type = "Produces") (htg : e2.targetID = c) :
    p.2.id ∈ findSubstitutes g c := by
  unfold findSubstitutes
  refine foldl_mem_of_mem _ (fun acc a => List.subset_append_left _ _)
    g.Nodes p hp p.2.id ?_ []
  intro acc
  apply List.mem_append_right
  refine List.mem_map.mpr ⟨e2, List.mem_filter.mpr ⟨he2, ?_⟩, rfl⟩
  rw [ht, htg, Bool.and_eq_true_iff]
  exact ⟨by decide, beq_self_eq_true c⟩

theorem findSubstitutes_inv (g : Graph) (c : String) (x : String)
    (hx : x ∈ findSubstitutes g c) :
    ∃ p ∈ g.Nodes, x = p.2.id ∧ ∃ e2 ∈ GetOutgoingEdges g p.2.id,
      e2.type = "Produces" ∧ e2.targetID = c := by
  unfold findSubstitutes at hx
  have hstep : ∀ (acc : List String) (p : String × Node) (y : String),
      y ∈ acc ++ ((GetOutgoingEdges g p.2.id).filter (fun e =>
        e.type == "Produces" && e.targetID == c)).map (fun _ => p.2.id) →
      y ∈ acc ∨ (y = p.2.id ∧ ∃ e2 ∈ GetOutgoingEdges g p.2.id,
        e2.type = "Produces" ∧ e2.targetID = c) := by
    intro acc p y hy
    rcases List.mem_append.mp hy with h1 | h2
    · exact Or.inl h1
    · obtain ⟨e2, hf, heq⟩ := List.mem_map.mp h2
      obtain ⟨he2, hcond⟩ := List.mem_filter.mp hf
      obtain ⟨hty, htg⟩ := Bool.and_eq_true_iff.mp hcond
      exact Or.inr ⟨heq.symm, e2, he2, beq_iff_eq.mp hty, beq_iff_eq.mp htg⟩
  rcases foldl_mem_inv _ (fun y p => y = p.2.id ∧
      ∃ e2 ∈ GetOutgoingEdges g p.2.id, e2.type = "Produces" ∧ e2.targetID = c)
      hstep g.Nodes [] x hx with h1 | ⟨p, hp, hq⟩
  · exact absurd h1 (List.not_mem_nil x)
  · exact ⟨p, hp, hq⟩

theorem winnersStrategy1_mem (g : Graph) (id : String) (sn : Node)
    (htype : sn.type = "Nation" ∨ sn.type = "RawMaterial")
    (eP : Edge) (heP : eP ∈ GetOutgoingEdges g id) (ht : eP.type = "Produces")
    (x : String) (hx : x ∈ findSubstitutes g eP.targetID) :
    x ∈ winnersStrategy1 g id sn := by
  unfold winnersStrategy1
  have hcond : (sn.type == "Nation" || sn.type == "RawMaterial") = true := by
    rcases htype with h | h <;> rw [h] <;> decide
  rw [if_pos (by rw [hcond] :
    (sn.type == "Nation" || sn.type == "RawMaterial") = true)]
  refine foldl_mem_of_mem _ ?_ (GetOutgoingEdges g id) eP heP x ?_ []
  · intro acc a
    split
    · exact List.subset_append_left _ _
    · exact List.Subset.refl _
  · intro acc
    rw [if_pos (by rw [ht]; decide : (eP.type == "Produces") = true)]
    exact List.mem_append_right acc hx

theorem winnersStrategy1_inv (g : Graph) (id : String) (sn : Node)
    (x : String) (hx : x ∈ winnersStrategy1 g id sn) :
    (sn.type = "Nation" ∨ sn.type = "RawMaterial") ∧
      ∃ eP ∈ GetOutgoingEdges g id, eP.type = "Produces" ∧
        x ∈ findSubstitutes g eP.targetID := by
  unfold winnersStrategy1 at hx
  by_cases hcond : (sn.type == "Nation" || sn.type == "RawMaterial") = true
  · rw [if_pos hcond] at hx
    have htype : sn.type = "Nation" ∨ sn.type = "RawMaterial" := by
      rcases Bool.or_eq_true_iff.mp hcond with h | h
      · exact Or.inl (beq_iff_eq.mp h)
      · exact Or.inr (beq_iff_eq.mp h)
    have hstep : ∀ (acc : List String) (e : Edge) (y : String),
        y ∈ (if e.type == "Produces" then
          acc ++ findSubstitutes g e.targetID else acc) →
        y ∈ acc ∨ (e.type = "Produces" ∧ y ∈ findSubstitutes g e.targetID) := by
      intro acc e y hy
      by_cases hp : (e.type == "Produces") = true
      · rw [if_pos hp] at hy
        rcases List.mem_append.mp hy with h1 | h2
        · exact Or.inl h1
        · exact Or.inr ⟨beq_iff_eq.mp hp, h2⟩
      · rw [if_neg hp] at hy
        exact Or.inl hy
    rcases foldl_mem_inv _ (fun y e => e.type = "Produces" ∧
        y ∈ findSubstitutes g e.targetID) hstep (GetOutgoingEdges g id) [] x hx
      with h1 | ⟨eP, heP, hq⟩
    · exact absurd h1 (List.not_mem_nil x)
    · exact ⟨htype, eP, heP, hq.1, hq.2⟩
  · rw [if_neg hcond] at hx
    exact absurd hx (List.not_mem_nil x)


theorem producersScn_full :
    RunShock 0 gProducers ⟨"A", "embargo", 1⟩ =
      (gProducersAfter, producersAfterResult) := by
  with_unfolding_all rfl

theorem producersScn_winnerD :
    "D" ∈ (RunShock 0 gProducers ⟨"A", "embargo", 1⟩).2.winners := by
  rw [producersScn_full]
  exact of_decide_eq_true (by with_unfolding_all rfl)

theorem producersScn_healthD :
    nodesFind (RunShock 0 gProducers ⟨"A", "embargo", 1⟩).1.Nodes "D" =
      some ⟨"D", "Nation", "D", 23/20⟩ := by
  rw [producersScn_full]
  with_unfolding_all rfl

theorem producersScn_healthD_before :
    nodesFind gProducers.Nodes "D" = some ⟨"D", "Nation", "D", 1⟩ := by
  with_unfolding_all rfl

theorem producersScn_noCompetitionEdges :
    ∀ e ∈ gProducers.Edges,
      ¬(e.type = "CompetesWith") ∧ ¬(e.type = "SubstituteFor") :=
  of_decide_eq_true (by with_unfolding_all rfl)

/-- C5 counterexample: shocking nation A, which produces Wheat, flags fellow
producer D as a winner and raises D's health by +0.15, although the graph
contains no CompetesWith or SubstituteFor edge at all — winner flagging is not
driven strictly by explicit competition/substitution edges. -/
theorem winners_flagged_without_competition_edges :
    "D" ∈ (RunShock 0 gProducers ⟨"A", "embargo", 1⟩).2.winners ∧
    nodesFind (RunShock 0 gProducers ⟨"A", "embargo", 1⟩).1.Nodes "D" =
      some ⟨"D", "Nation", "D", 23/20⟩ ∧
    nodesFind gProducers.Nodes "D" = some ⟨"D", "Nation", "D", 1⟩ ∧
    (∀ e ∈ gProducers.Edges,
      ¬(e.type = "CompetesWith") ∧ ¬(e.type = "SubstituteFor")) :=
  ⟨producersScn_winnerD, producersScn_healthD, producersScn_healthD_before,
   producersScn_noCompetitionEdges⟩

theorem competeScn_full :
    RunShock 0 gCompete ⟨"A", "recall", 1⟩ =
      (gCompeteAfter, competeAfterResult) := by
  with_unfolding_all rfl

theorem competeScn_winners :
    (RunShock 0 gCompete ⟨"A", "recall", 1⟩).2.winners = ["C"] := by
  rw [competeScn_full]
  rfl

theorem competeScn_healthC_before :
    nodesFind gCompete.Nodes "C" = some ⟨"C", "Corporation", "C", 1⟩ := by
  with_unfolding_all rfl

theorem competeScn_healthC :
    nodesFind (RunShock 0 gCompete ⟨"A", "recall", 1⟩).1.Nodes "C" =
      some ⟨"C", "Corporation", "C", 23/20⟩ := by
  rw [competeScn_full]
  with_unfolding_all rfl

/-- C5 (amended): winner identification flags exactly (a) entities linked to
the shocked entity by explicit CompetesWith edges (target side when the
shocked node is the source; source side when the shocked node is the target of
a non-self-loop), (b) sources of SubstituteFor edges pointing at the shocked
node, and (c) — when the shocked node is a Nation or RawMaterial — every
producer (the shocked node included) of each commodity the shocked node
Produces; each flagged winner entry receives a +0.15 health boost (clamped).
In the §8 scenario A --CompetesWith--> C, shocking A flags exactly C and
raises C's health from 1.0 to 1.15. -/
theorem identifyWinners_spec :
    (∀ (g : Graph) (id : String) (sn : Node),
      nodesFind g.Nodes id = some sn →
      ∀ x, x ∈ identifyWinners g id ↔ winnerFlagged g id sn x) ∧
    ((RunShock 0 gCompete ⟨"A", "recall", 1⟩).2.winners = ["C"] ∧
     nodesFind gCompete.Nodes "C" = some ⟨"C", "Corporation", "C", 1⟩ ∧
     nodesFind (RunShock 0 gCompete ⟨"A", "recall", 1⟩).1.Nodes "C" =
       some ⟨"C", "Corporation", "C", 23/20⟩) := by
  constructor
  · intro g id sn h x
    unfold identifyWinners
    rw [h]
    constructor
    · intro hx
      rcases foldl_mem_inv _ (fun y e =>
          (e.type = "CompetesWith" ∧ e.sourceID = id ∧ y = e.targetID) ∨
          (e.type = "CompetesWith" ∧ e.sourceID ≠ id ∧ e.targetID = id ∧
            y = e.sourceID) ∨
          (e.type = "SubstituteFor" ∧ e.targetID = id ∧ y = e.sourceID))
          (fun acc e y hy => by
            rcases strategy2Step_inv id acc e y hy with h1 | h1 | h1 | h1
            · exact Or.inl h1
            · exact Or.inr (Or.inl h1)
            · exact Or.inr (Or.inr (Or.inl h1))
            · exact Or.inr (Or.inr (Or.inr h1)))
          g.Edges (winnersStrategy1 g id sn) x hx with h1 | ⟨e, he, hq⟩
      · obtain ⟨htype, eP, heP, hPty, hsub⟩ := winnersStrategy1_inv g id sn x h1
        obtain ⟨hePedges, hePsrc⟩ := (mem_getOutgoingEdges g id eP).mp heP
        obtain ⟨p, hp, hxp, e2, he2, he2ty, he2tg⟩ :=
          findSubstitutes_inv g eP.targetID x hsub
        obtain ⟨he2edges, he2src⟩ := (mem_getOutgoingEdges g p.2.id e2).mp he2
        exact Or.inl ⟨htype, eP, hePedges, hePsrc, hPty, p, hp, hxp,
          e2, he2edges, he2src, he2ty, he2tg⟩
      · rcases hq with h1 | h1 | h1
        · exact Or.inr (Or.inl ⟨e, he, h1.1, h1.2.1, h1.2.2⟩)
        · exact Or.inr (Or.inr (Or.inl ⟨e, he, h1.1, h1.2.1, h1.2.2.1,
            h1.2.2.2⟩))
        · exact Or.inr (Or.inr (Or.inr ⟨e, he, h1.1, h1.2.1, h1.2.2⟩))
    · intro hx
      rcases hx with ⟨htype, eP, hePedges, hePsrc, hPty, p, hp, hxp, e2,
          he2edges, he2src, he2ty, he2tg⟩ | ⟨e, he, h1, h2, h3⟩ |
          ⟨e, he, h1, h2, h3, h4⟩ | ⟨e, he, h1, h2, h3⟩
      · apply foldl_subset _ (strategy2Step_subset id) g.Edges
        refine winnersStrategy1_mem g id sn htype eP
          ((mem_getOutgoingEdges g id eP).mpr ⟨hePedges, hePsrc⟩) hPty x ?_
        rw [hxp]
        exact findSubstitutes_mem g eP.targetID p hp e2
          ((mem_getOutgoingEdges g p.2.id e2).mpr ⟨he2edges, he2src⟩)
          he2ty he2tg
      · rw [h3]
        exact foldl_mem_of_mem _ (strategy2Step_subset id) g.Edges e he
          e.targetID (fun acc => strategy2Step_competes_source id acc e h1 h2) _
      · rw [h4]
        exact foldl_mem_of_mem _ (strategy2Step_subset id) g.Edges e he
          e.sourceID
          (fun acc => strategy2Step_competes_target id acc e h1 h3 h2) _
      · rw [h3]
        exact foldl_mem_of_mem _ (strategy2Step_subset id) g.Edges e he
          e.sourceID (fun acc => strategy2Step_substitute id acc e h1 h2) _
  · exact ⟨competeScn_winners, competeScn_healthC_before, competeScn_healthC⟩

theorem identifyWinners_spec_witness :
    nodesFind gCompete.Nodes "A" = some ⟨"A", "Corporation", "A", 1⟩ ∧
      ("C" ∈ identifyWinners gCompete "A" ↔
        winnerFlagged gCompete "A" ⟨"A", "Corporation", "A", 1⟩ "C") :=
  ⟨by with_unfolding_all rfl,
   identifyWinners_spec.1 gCompete "A" ⟨"A", "Corporation", "A", 1⟩
     (by with_unfolding_all rfl) "C"⟩

end Margraf
